import Mathlib

/-!
Shallow embedding of eventsourcing/system/ray.py: the RayRunner that spawns and
wires one RayProcess actor per (process, pipeline), and the RayProcess actor
with its three loops (Puller = process_notifications, Processor =
process_events, Pusher = push_prompts). Each definition embeds the source
fragment named in its doc comment; collaborators that live outside src are
modelled from the specification and say so.
-/

namespace RaySpec

/-- Exception classes raised by the embedded code, from eventsourcing.exceptions
and the Python builtins. The source raises ProgrammingError when the
infrastructure class is missing or unsuitable; the constructor
configurationError embeds the exception class named by the specification, which
the source never raises. -/
inductive RayError where
  | programmingError (msg : String)
  | configurationError (msg : String)
  | operationalError
  | recordConflictError
  | causalDependencyFailed
  | attributeError (attrName : String)
  | assertionError (msg : String)
  | indexError
  | genericException (msg : String)
deriving DecidableEq, Repr

/-- RayPrompt from eventsourcing.system.rayhelpers: the outbound prompt built on
lines 320-321 of ray.py carries the process name and the pipeline id. -/
structure RayPrompt where
  processName : String
  pipelineId : Nat
deriving DecidableEq, Repr

/-- Domain events are decoded from notifications by externally implemented code
and never inspected by ray.py; a token with a payload stands for one. -/
structure DomainEvent where
  payload : Nat
deriving DecidableEq, Repr

/-- Notification record read from an upstream log: a sequential id and the
declared causal dependencies, each a (process name, notification id) pair. -/
structure Notification where
  id : Nat
  causalDependencies : List (String × Nat)
deriving DecidableEq, Repr

/-- Item of the upstream event queue (line 284-286 of ray.py): the decoded
event, the notification id, and the upstream name. -/
abbrev QItem := DomainEvent × Nat × String

/-- State of one RayProcess actor: the fields set in the constructor (lines
153-176) and in init, with thread-join and subscription status made explicit.
push_prompt_queue holds prompts and the none sentinel that stop puts on it. -/
structure ProcState where
  processName : String
  pipelineId : Nat
  upstreamNames : List String
  readerPos : String → Nat
  tracking : String → Nat
  upstreamEventQueue : List QItem
  promptedNames : List String
  hasBeenPrompted : Bool
  pushPromptQueue : List (Option RayPrompt)
  hasBeenStopped : Bool
  subscribedToPrompts : Bool
  pullerJoined : Bool
  pusherJoined : Bool

/-- RayProcess.enqueue_prompt (lines 328-329): the handler subscribed in init
puts prompts[0] on push_prompt_queue. Indexing an empty batch raises
IndexError. -/
def enqueuePrompt (prompts : List RayPrompt) (pushPromptQueue : List (Option RayPrompt)) :
    Except RayError (List (Option RayPrompt)) :=
  match prompts with
  | [] => .error .indexError
  | p :: _ => .ok (pushPromptQueue ++ [some p])

/-- Round selection of the Puller loop, lines 245-262 of ray.py: signalled is
the value returned by the bounded wait on has_been_prompted. On a timeout the
round scans every upstream (upstream_logs.keys()) and the pending state is left
alone; on a signal the pending set is drained and cleared and the prompted
event is cleared, under prompted_names_lock (the single function application
embeds the atomic drain). Returns the names scanned this round and the state
after selection. -/
def pullerRoundNames (s : ProcState) (signalled : Bool) : List String × ProcState :=
  if signalled then
    (s.promptedNames, { s with hasBeenPrompted := false, promptedNames := [] })
  else
    (s.upstreamNames, s)

/-- Modelled from the spec: ProcessApplication.check_causal_dependencies is not
under src; per the specification it verifies that every declared predecessor
(process name, notification id) is already applied locally, raising
CausalDependencyFailed otherwise. Locally applied state is embedded as the
last applied position per upstream process. -/
def checkCausalDependencies (appliedPos : String → Nat) (deps : List (String × Nat)) :
    Except RayError Unit :=
  if deps.all (fun d => decide (d.2 ≤ appliedPos d.1)) then .ok () else
    .error .causalDependencyFailed

/-- Inner loop of the Puller for one upstream, lines 274-286 of ray.py: for each
notification read, check causal dependencies, decode the event, and put
(event, id, upstream) on the upstream event queue. A failing check raises, so
the loop stops there: earlier puts are not rolled back, and neither the failing
notification nor its successors are enqueued. Returns the queue after the loop
and the raised error, if any. -/
def enqueueNotifications (decode : Notification → DomainEvent) (appliedPos : String → Nat)
    (upstreamName : String) :
    List Notification → List QItem → List QItem × Option RayError
  | [], queue => (queue, none)
  | n :: rest, queue =>
    match checkCausalDependencies appliedPos n.causalDependencies with
    | .error e => (queue, some e)
    | .ok _ =>
      enqueueNotifications decode appliedPos upstreamName rest
        (queue ++ [(decode n, n.id, upstreamName)])

/-- Modelled from the spec: set_reader_position_from_tracking_records is not
under src; per the specification it re-derives a reader position from the last
durable tracking position. reset_readers (lines 324-326) applies it to every
followed upstream. -/
def resetReaders (s : ProcState) : ProcState :=
  { s with readerPos := fun u => if u ∈ s.upstreamNames then s.tracking u else s.readerPos u }

/-- Set-addition of names into the pending list, embedding the Python set adds
on lines 315-316: each name is added once, order of first addition kept. -/
def addAll (names : List String) (acc : List String) : List String :=
  names.foldl (fun a n => if n ∈ a then a else a ++ [n]) acc

/-- Exception handler of the Processor loop, lines 308-317 of ray.py: under
event_reading_lock, reset every reader from tracking records, clear the
upstream event queue under its mutex, and under prompted_names_lock add every
upstream name to the pending set and set has_been_prompted. -/
def onProcessError (s : ProcState) : ProcState :=
  let s1 := resetReaders s
  { s1 with
      upstreamEventQueue := [],
      promptedNames := addAll s1.upstreamNames s1.promptedNames,
      hasBeenPrompted := true }

/-- Operations appearing in the Processor exception handler, used to state in
which order, and under which lock, the handler performs its effects. -/
inductive LoopAction where
  | acquireEventReadingLock
  | releaseEventReadingLock
  | resetReadersAction
  | purgeEventQueue
  | addPendingName (u : String)
  | setPromptedSignal
deriving DecidableEq, Repr

/-- Order of operations performed by the Processor exception handler (lines
310-317): everything happens between acquiring and releasing
event_reading_lock. -/
def onProcessErrorActions (upstreamNames : List String) : List LoopAction :=
  [LoopAction.acquireEventReadingLock, LoopAction.resetReadersAction,
      LoopAction.purgeEventQueue] ++
    upstreamNames.map LoopAction.addPendingName ++
    [LoopAction.setPromptedSignal, LoopAction.releaseEventReadingLock]

/-- Result of process.process_upstream_event, which is externally implemented
business policy: the list of new events it published, or the exception it
raised. -/
inductive ApplyOutcome where
  | ok (newEvents : List DomainEvent)
  | raised (e : RayError)

/-- One iteration of the Processor loop, lines 288-322 of ray.py: while not
stopped, pop the head of the upstream event queue (an empty queue is the Empty
timeout: nothing happens this iteration), apply the event through
process_upstream_event, and either enqueue one outbound RayPrompt naming this
process when new events were produced, or run the exception handler. The
iteration never propagates an exception, so the actor keeps running. -/
def processEventsStep (applyEvent : DomainEvent → Nat → String → ApplyOutcome)
    (s : ProcState) : ProcState :=
  if s.hasBeenStopped then s
  else
    match s.upstreamEventQueue with
    | [] => s
    | (ev, nid, uname) :: rest =>
      let s1 := { s with upstreamEventQueue := rest }
      match applyEvent ev nid uname with
      | .raised _ => onProcessError s1
      | .ok newEvents =>
        if newEvents.isEmpty then s1
        else { s1 with pushPromptQueue :=
                s1.pushPromptQueue ++ [some ⟨s.processName, s.pipelineId⟩] }

/-- RayProcess.stop, lines 362-368 of ray.py: set has_been_stopped, put a none
sentinel on push_prompt_queue (waking the Pusher wait), set has_been_prompted
(waking the Puller wait), join the Puller and Pusher threads with a bounded
timeout (both loop guards observe the stop flag, so the joins complete), and
unsubscribe the enqueue_prompt handler. Modelled from the spec: unsubscribe is
not under src; per the specification it removes the local prompt hook, a no-op
when the hook is already removed. -/
def rayStop (s : ProcState) : ProcState :=
  { s with
      hasBeenStopped := true,
      pushPromptQueue := s.pushPromptQueue ++ [none],
      hasBeenPrompted := true,
      pullerJoined := true,
      pusherJoined := true,
      subscribedToPrompts := false }

/-- Guard shared by the three loops (lines 243, 289 and 332 of ray.py): a loop
runs another iteration only while has_been_stopped is not set. -/
def loopGuard (s : ProcState) : Bool := !s.hasBeenStopped

/-- Effects of stop that are observable from outside the actor, as the
specification lists them: the stop signal, the woken waits, the joined threads,
the subscription state, and whether any loop can still run. Contents of
push_prompt_queue beyond the waking sentinel are not externally observable
because the only consumer, the Pusher loop, no longer runs once stopped. -/
structure StopObservables where
  stopSignal : Bool
  promptedSignal : Bool
  pullerJoined : Bool
  pusherJoined : Bool
  subscribed : Bool
  anyLoopRunnable : Bool
deriving DecidableEq, Repr

/-- Observation function for stop idempotence. -/
def observeStop (s : ProcState) : StopObservables :=
  { stopSignal := s.hasBeenStopped
    promptedSignal := s.hasBeenPrompted
    pullerJoined := s.pullerJoined
    pusherJoined := s.pusherJoined
    subscribed := s.subscribedToPrompts
    anyLoopRunnable := loopGuard s }

/-- Description of one process application class in the system definition, as
RayRunner.start inspects it: whether the class object passes the isinstance
check against ApplicationWithConcreteInfrastructure on line 70 of ray.py (an
isinstance applied to a class object, exactly as the source writes it). -/
structure ProcessClassDesc where
  name : String
  isConcreteInfrastructureInstance : Bool
deriving DecidableEq, Repr

/-- Configured infrastructure class: whether it subclasses
ApplicationWithConcreteInfrastructure (line 73). none embeds
infrastructure_class not being set. -/
structure InfraClassDesc where
  isConcreteInfrastructureSubclass : Bool
deriving DecidableEq, Repr

/-- Configuration of a RayRunner: the system process classes in definition
order, the configured infrastructure class, the pipeline ids, and the two
sources of DB_URI (the runner argument and the environment). -/
structure RunnerConfig where
  processClasses : List ProcessClassDesc
  infrastructureClass : Option InfraClassDesc
  pipelineIds : List Nat
  dbUri : Option String
  envDbUri : Option String
deriving DecidableEq, Repr

/-- Remote invocations performed by RayRunner.start, in order: spawn an actor,
invoke init on it, await all init results (the ray.get on line 128), invoke
run on it. -/
inductive RunnerAction where
  | spawnActor (processName : String) (pipelineId : Nat)
  | initActor (processName : String) (pipelineId : Nat)
  | awaitAllInits
  | runActor (processName : String) (pipelineId : Nat)
deriving DecidableEq, Repr

/-- Infrastructure validation loop of RayRunner.start, lines 68-80 of ray.py:
for every process class that fails the isinstance check the runner requires a
configured infrastructure class subclassing ApplicationWithConcreteInfrastructure
and raises ProgrammingError otherwise. -/
def validateInfrastructure : List ProcessClassDesc → Option InfraClassDesc → Option RayError
  | [], _ => none
  | pc :: rest, infra =>
    if pc.isConcreteInfrastructureInstance then validateInfrastructure rest infra
    else
      match infra with
      | none => some (.programmingError "infrastructure_class is not set")
      | some ic =>
        if ic.isConcreteInfrastructureSubclass then validateInfrastructure rest infra
        else some (.programmingError "infrastructure_class is not a subclass")

/-- Keys of the ray_processes dict in insertion order: the spawn loop on lines
95-105 of ray.py iterates pipeline ids in the outer loop and process classes in
the inner loop, so the init loop over ray_processes.items() and the run loop
over its values() visit the same (process name, pipeline id) pairs in the same
order. -/
def actorKeys (cfg : RunnerConfig) : List (String × Nat) :=
  (cfg.pipelineIds.map (fun pid => cfg.processClasses.map (fun pc => (pc.name, pid)))).flatten

/-- RayRunner.start, lines 64-133 of ray.py, as the sequence of remote actions
it performs: validate the infrastructure classes, resolve DB_URI (the runner
argument, else the environment; the bare assert on lines 90-92 raises
AssertionError when neither is set), spawn one actor per (pipeline, process),
invoke init on every actor, await every init result, then invoke run on every
actor. When an exception is raised, the actions performed so far are returned
together with the error. -/
def runnerStart (cfg : RunnerConfig) : List RunnerAction × Option RayError :=
  match validateInfrastructure cfg.processClasses cfg.infrastructureClass with
  | some e => ([], some e)
  | none =>
    match (match cfg.dbUri with | some u => some u | none => cfg.envDbUri) with
    | none =>
      ([], some (.assertionError "DB_URI not set"))
    | some _ =>
      let keys := actorKeys cfg
      (keys.map (fun k => RunnerAction.spawnActor k.1 k.2) ++
        (keys.map (fun k => RunnerAction.initActor k.1 k.2) ++
          ([RunnerAction.awaitAllInits] ++
            keys.map (fun k => RunnerAction.runActor k.1 k.2))), none)

/-- Classifier for the exception class the specification names for a start
failure: true exactly when the run raised a ConfigurationError. -/
def raisesConfigurationError (r : List RunnerAction × Option RayError) : Bool :=
  match r.2 with
  | some (.configurationError _) => true
  | _ => false

/-- Modelled from the spec: the retry decorator (eventsourcing.domain.model.
decorators, not under src) retries the wrapped call only for the declared
retryable exception kinds, up to the declared maximum number of attempts, with
a fixed wait between attempts; any other exception, and the last failure,
propagate at once. fuel is the number of attempts still allowed after the
current one; attempt counts the tries already made. Returns the result and the
total number of attempts made. -/
def retryExec (retryable : RayError → Bool) (body : Nat → Except RayError α) :
    Nat → Nat → Except RayError α × Nat
  | 0, attempt => (body attempt, attempt + 1)
  | fuel + 1, attempt =>
    match body attempt with
    | .ok a => (.ok a, attempt + 1)
    | .error e =>
      if retryable e then retryExec retryable body fuel (attempt + 1)
      else (.error e, attempt + 1)

/-- Retryable exception kinds declared by the decorator on line 224 of ray.py:
only OperationalError. -/
def retryOnOperationalError (e : RayError) : Bool :=
  match e with
  | .operationalError => true
  | _ => false

/-- Wrapped process application as RayProcess.call sees it: a dispatch on the
method name. The result may vary with the attempt number, to embed transient
failures across retries. Arguments and results stand in as naturals, since
ray.py passes them through without inspection. -/
structure ProcessApp where
  callMethod : String → List Nat → Nat → Except RayError Nat

/-- Body of RayProcess.call, lines 225-233 of ray.py, without its decorator:
before init has run the actor object has no process attribute, so evaluating
self.process raises AttributeError (the explicit raise on lines 230-233 is
unreachable: a constructed process object is always truthy). After init the
call dispatches to the named method of the process application. -/
def callBody (process : Option ProcessApp) (methodName : String) (args : List Nat)
    (attempt : Nat) : Except RayError Nat :=
  match process with
  | none => .error (.attributeError "process")
  | some p => p.callMethod methodName args attempt

/-- RayProcess.call together with its decorator retry(OperationalError,
max_attempts=10, wait=0.1) from line 224 of ray.py. -/
def rayCall (process : Option ProcessApp) (methodName : String) (args : List Nat) :
    Except RayError Nat × Nat :=
  retryExec retryOnOperationalError (callBody process methodName args) 9 0

/-- State of the fault-free single-upstream execution: the reader position, the
notification ids sitting on the upstream event queue, and the ids already
applied through process_upstream_event, in application order. -/
structure SingleUpstreamState where
  readerPos : Nat
  queued : List Nat
  applied : List Nat
deriving DecidableEq, Repr

/-- Modelled from the spec: NotificationLogReader.read is not under src; per the
specification it returns, in ascending id order, the notifications published so
far whose id exceeds the current reader position, and advances the position
past them. cutoff is the highest id published at the time of the read. -/
def readerRead (log : List Nat) (pos cutoff : Nat) : List Nat :=
  log.filter (fun i => decide (pos < i) && decide (i ≤ cutoff))

/-- One Puller round on the single upstream (lines 264-286 of ray.py) in the
fault-free run: every notification read passes its causal-dependency check and
is enqueued, and the reader position advances to the last id read. -/
def pullOnce (log : List Nat) (cutoff : Nat) (s : SingleUpstreamState) : SingleUpstreamState :=
  let ns := readerRead log s.readerPos cutoff
  { readerPos := ns.getLast?.getD s.readerPos
    queued := s.queued ++ ns
    applied := s.applied }

/-- One Processor iteration (lines 288-306 of ray.py) in the fault-free run:
pop the head of the event queue and apply it; an empty queue is the Empty
timeout and applies nothing. -/
def applyOnce (s : SingleUpstreamState) : SingleUpstreamState :=
  match s.queued with
  | [] => s
  | i :: rest => { readerPos := s.readerPos, queued := rest, applied := s.applied ++ [i] }

/-- Interleaving alphabet of the fault-free execution: a Puller round reading
the notifications published up to cutoff, or one Processor iteration. -/
inductive FaultFreeStep where
  | pullRound (cutoff : Nat)
  | applyNext
deriving DecidableEq, Repr

/-- Run an interleaving of Puller rounds and Processor iterations. -/
def runSteps (log : List Nat) : List FaultFreeStep → SingleUpstreamState → SingleUpstreamState
  | [], s => s
  | .pullRound c :: rest, s => runSteps log rest (pullOnce log c s)
  | .applyNext :: rest, s => runSteps log rest (applyOnce s)

/-- Invariant of the fault-free single-upstream run started at tracking
position p0: the applied ids followed by the queued ids are exactly the log
entries in the half-open interval (p0, readerPos], in log order. -/
def c1Inv (log : List Nat) (p0 : Nat) (s : SingleUpstreamState) : Prop :=
  p0 ≤ s.readerPos ∧
    s.applied ++ s.queued =
      log.filter (fun i => decide (p0 < i) && decide (i ≤ s.readerPos))

/-- Concrete actor state used to evaluate the theorems on an input: one item
queued from upstream u, readers ahead of their tracking positions. -/
def sampleProcState : ProcState where
  processName := "p"
  pipelineId := 0
  upstreamNames := ["u", "v"]
  readerPos := fun _ => 7
  tracking := fun _ => 3
  upstreamEventQueue := [(⟨9⟩, 4, "u")]
  promptedNames := []
  hasBeenPrompted := false
  pushPromptQueue := []
  hasBeenStopped := false
  subscribedToPrompts := true
  pullerJoined := false
  pusherJoined := false

/-- Concrete wrapped process whose methods always succeed, for evaluating the
call theorems. -/
def sampleApp : ProcessApp where
  callMethod := fun _ _ _ => .ok 5

/-- Concrete decode function: the decoded event carries the notification id. -/
def sampleDecode : Notification → DomainEvent := fun n => ⟨n.id⟩

/-- Concrete local applied positions: every upstream process is applied up to
id 5. -/
def sampleAppliedPos : String → Nat := fun _ => 5

/-- Concrete notification batch: one without dependencies and one whose
dependency on process a at id 3 is locally satisfied. -/
def sampleNotifs : List Notification := [⟨1, []⟩, ⟨2, [("a", 3)]⟩]

/-- Concrete runner configuration whose only process class lacks concrete
infrastructure while no infrastructure class is configured. -/
def missingInfraConfig : RunnerConfig where
  processClasses := [⟨"orders", false⟩]
  infrastructureClass := none
  pipelineIds := [0]
  dbUri := some "postgres"
  envDbUri := none

/-- Concrete runner configuration that starts cleanly: two process classes with
concrete infrastructure, one pipeline, DB_URI set. -/
def twoProcConfig : RunnerConfig where
  processClasses := [⟨"a", true⟩, ⟨"b", true⟩]
  infrastructureClass := none
  pipelineIds := [0]
  dbUri := some "postgres"
  envDbUri := none

theorem addAll_cons (n : String) (rest acc : List String) :
    addAll (n :: rest) acc = addAll rest (if n ∈ acc then acc else acc ++ [n]) := rfl

theorem mem_addAll_of_mem_acc (names : List String) :
    ∀ (acc : List String) (u : String), u ∈ acc → u ∈ addAll names acc := by
  induction names with
  | nil => intro acc u h; simpa [addAll] using h
  | cons n rest ih =>
    intro acc u h
    rw [addAll_cons]
    apply ih
    by_cases hn : n ∈ acc
    · simpa [hn] using h
    · simp only [hn, if_false]
      exact List.mem_append_left _ h

theorem mem_addAll_of_mem (names : List String) :
    ∀ (acc : List String) (u : String), u ∈ names → u ∈ addAll names acc := by
  induction names with
  | nil => intro acc u h; cases h
  | cons n rest ih =>
    intro acc u h
    rw [addAll_cons]
    rcases List.mem_cons.mp h with rfl | h2
    · apply mem_addAll_of_mem_acc
      by_cases hn : u ∈ acc
      · simp [hn]
      · simp [hn]
    · exact ih _ u h2

/-- C10: enqueue_prompt puts only the first prompt of a published batch on the
push-prompt queue; every prompt after the first is dropped: the result does not
depend on the tail of the batch and the queue grows by exactly one entry. -/
theorem c10_enqueue_prompt_drops_tail (p : RayPrompt) (ps : List RayPrompt)
    (q : List (Option RayPrompt)) :
    enqueuePrompt (p :: ps) q = .ok (q ++ [some p]) ∧
    (∀ tail2 : List RayPrompt, enqueuePrompt (p :: tail2) q = enqueuePrompt (p :: ps) q) ∧
    (q ++ [some p]).length = q.length + 1 :=
  ⟨rfl, fun _ => rfl, by simp⟩

/-- C5: when the bounded wait for the prompted signal times out, the Puller
round scans exactly the full set of upstream names and leaves the pending
state alone; when the signal was set, the round scans exactly the drained
pending set, which is cleared together with the prompted signal. -/
theorem c5_puller_round_selection (s : ProcState) :
    pullerRoundNames s false = (s.upstreamNames, s) ∧
    (pullerRoundNames s true).1 = s.promptedNames ∧
    (pullerRoundNames s true).2.promptedNames = [] ∧
    (pullerRoundNames s true).2.hasBeenPrompted = false ∧
    (pullerRoundNames s true).2.upstreamNames = s.upstreamNames ∧
    (pullerRoundNames s true).2.upstreamEventQueue = s.upstreamEventQueue ∧
    (pullerRoundNames s true).2.readerPos = s.readerPos :=
  ⟨rfl, rfl, rfl, rfl, rfl, rfl, rfl⟩

/-- C8: stop is idempotent in its externally observable effect: the second call
changes nothing except appending one more never-consumed sentinel to the
internal push-prompt queue, whose only consumer no longer runs. After one call
the stop signal and the prompted signal are set, the Puller and Pusher threads
are joined, the prompt hook is unsubscribed, and no loop of the actor remains
runnable: the shared loop guard is false and a Processor iteration leaves the
state unchanged. -/
theorem c8_stop_idempotent_observable (s : ProcState)
    (applyEvent : DomainEvent → Nat → String → ApplyOutcome) :
    observeStop (rayStop (rayStop s)) = observeStop (rayStop s) ∧
    rayStop (rayStop s) =
      { rayStop s with pushPromptQueue := (rayStop s).pushPromptQueue ++ [none] } ∧
    (rayStop s).hasBeenStopped = true ∧
    (rayStop s).hasBeenPrompted = true ∧
    (rayStop s).pullerJoined = true ∧
    (rayStop s).pusherJoined = true ∧
    (rayStop s).subscribedToPrompts = false ∧
    loopGuard (rayStop s) = false ∧
    processEventsStep applyEvent (rayStop s) = rayStop s :=
  ⟨rfl, rfl, rfl, rfl, rfl, rfl, rfl, rfl, rfl⟩

/-- C7: after a successful event application the Processor enqueues exactly one
outbound prompt naming this process and its pipeline when the application
produced one or more new events, and enqueues nothing when it produced none. -/
theorem c7_prompt_iff_new_events (applyEvent : DomainEvent → Nat → String → ApplyOutcome)
    (s : ProcState) (ev : DomainEvent) (nid : Nat) (uname : String) (rest : List QItem)
    (newEvents : List DomainEvent)
    (hstop : s.hasBeenStopped = false)
    (hq : s.upstreamEventQueue = (ev, nid, uname) :: rest)
    (happly : applyEvent ev nid uname = .ok newEvents) :
    (newEvents ≠ [] →
      (processEventsStep applyEvent s).pushPromptQueue =
        s.pushPromptQueue ++ [some ⟨s.processName, s.pipelineId⟩]) ∧
    (newEvents = [] →
      (processEventsStep applyEvent s).pushPromptQueue = s.pushPromptQueue) := by
  constructor
  · intro hne
    simp [processEventsStep, hstop, hq, happly, List.isEmpty_iff, hne]
  · intro he
    subst he
    simp [processEventsStep, hstop, hq, happly]

/-- C7 witness: on a concrete state with one queued item, an application that
publishes one event enqueues exactly the prompt (p, 0), and one that publishes
nothing leaves the push queue empty. -/
theorem c7_witness :
    (processEventsStep (fun _ _ _ => ApplyOutcome.ok [⟨1⟩]) sampleProcState).pushPromptQueue =
      [some ⟨"p", 0⟩] ∧
    (processEventsStep (fun _ _ _ => ApplyOutcome.ok []) sampleProcState).pushPromptQueue =
      [] := by
  constructor
  · have h := (c7_prompt_iff_new_events (fun _ _ _ => ApplyOutcome.ok [⟨1⟩])
      sampleProcState ⟨9⟩ 4 "u" [] [⟨1⟩] rfl rfl rfl).1 (by simp)
    simpa [sampleProcState] using h
  · have h := (c7_prompt_iff_new_events (fun _ _ _ => ApplyOutcome.ok [])
      sampleProcState ⟨9⟩ 4 "u" [] [] rfl rfl rfl).2 rfl
    simpa [sampleProcState] using h

/-- C3: when process_upstream_event raises, the Processor iteration does not
crash the actor and performs the full reset under the exclusive read lock: the
upstream event queue is purged, every upstream name is added to the pending
set, the prompted signal is set, every upstream reader is back at its durable
tracking position, the stop flag is untouched so the loops keep running, and
the handler performs all of this between acquiring and releasing
event_reading_lock. -/
theorem c3_error_full_reset (applyEvent : DomainEvent → Nat → String → ApplyOutcome)
    (s : ProcState) (ev : DomainEvent) (nid : Nat) (uname : String) (rest : List QItem)
    (e : RayError)
    (hstop : s.hasBeenStopped = false)
    (hq : s.upstreamEventQueue = (ev, nid, uname) :: rest)
    (happly : applyEvent ev nid uname = .raised e) :
    (processEventsStep applyEvent s).upstreamEventQueue = [] ∧
    (∀ u ∈ s.upstreamNames, u ∈ (processEventsStep applyEvent s).promptedNames) ∧
    (processEventsStep applyEvent s).hasBeenPrompted = true ∧
    (∀ u ∈ s.upstreamNames, (processEventsStep applyEvent s).readerPos u = s.tracking u) ∧
    (processEventsStep applyEvent s).hasBeenStopped = false ∧
    (∃ mid, onProcessErrorActions s.upstreamNames =
        LoopAction.acquireEventReadingLock :: (mid ++ [LoopAction.releaseEventReadingLock]) ∧
      LoopAction.resetReadersAction ∈ mid ∧ LoopAction.purgeEventQueue ∈ mid ∧
      LoopAction.setPromptedSignal ∈ mid ∧
      ∀ u ∈ s.upstreamNames, LoopAction.addPendingName u ∈ mid) := by
  have hstep : processEventsStep applyEvent s =
      onProcessError { s with upstreamEventQueue := rest } := by
    simp [processEventsStep, hstop, hq, happly]
  refine ⟨?_, ?_, ?_, ?_, ?_, ?_⟩
  · rw [hstep]; rfl
  · intro u hu
    rw [hstep]
    exact mem_addAll_of_mem _ _ u hu
  · rw [hstep]; rfl
  · intro u hu
    rw [hstep]
    simp [onProcessError, resetReaders, hu]
  · rw [hstep]
    simpa [onProcessError, resetReaders] using hstop
  · refine ⟨[LoopAction.resetReadersAction, LoopAction.purgeEventQueue] ++
      s.upstreamNames.map LoopAction.addPendingName ++ [LoopAction.setPromptedSignal],
      ?_, ?_, ?_, ?_, ?_⟩
    · simp [onProcessErrorActions]
    · simp
    · simp
    · simp
    · intro u hu
      simp only [List.mem_append]
      exact Or.inl (Or.inr (List.mem_map_of_mem _ hu))

/-- C3 witness: on the concrete state, an application that raises a record
conflict leaves an empty queue, both upstreams pending, the prompted signal
set, and the reader for u back at tracking position 3. -/
theorem c3_witness :
    (processEventsStep (fun _ _ _ => ApplyOutcome.raised RayError.recordConflictError)
        sampleProcState).upstreamEventQueue = [] ∧
    "u" ∈ (processEventsStep (fun _ _ _ => ApplyOutcome.raised RayError.recordConflictError)
        sampleProcState).promptedNames ∧
    (processEventsStep (fun _ _ _ => ApplyOutcome.raised RayError.recordConflictError)
        sampleProcState).hasBeenPrompted = true ∧
    (processEventsStep (fun _ _ _ => ApplyOutcome.raised RayError.recordConflictError)
        sampleProcState).readerPos "u" = 3 := by
  have h := c3_error_full_reset (fun _ _ _ => ApplyOutcome.raised RayError.recordConflictError)
    sampleProcState ⟨9⟩ 4 "u" [] RayError.recordConflictError rfl rfl rfl
  exact ⟨h.1, h.2.1 "u" (by simp [sampleProcState]),
    h.2.2.1, by simpa [sampleProcState] using h.2.2.2.1 "u" (by simp [sampleProcState])⟩

theorem retryExec_attempts_le (retryable : RayError → Bool) (body : Nat → Except RayError α) :
    ∀ (fuel attempt : Nat), (retryExec retryable body fuel attempt).2 ≤ attempt + fuel + 1 := by
  intro fuel
  induction fuel with
  | zero => intro attempt; simp [retryExec]
  | succ f ih =>
    intro attempt
    rw [retryExec]
    cases body attempt with
    | ok a => simp
    | error e =>
      by_cases hr : retryable e
      · simp only [hr, if_true]
        have := ih (attempt + 1)
        omega
      · simp only [hr, if_false]
        simp

theorem retryExec_first_ok (retryable : RayError → Bool) (body : Nat → Except RayError α)
    (fuel : Nat) (v : α) (h : body 0 = .ok v) :
    retryExec retryable body fuel 0 = (.ok v, 1) := by
  cases fuel <;> simp [retryExec, h]

theorem retryExec_first_nonretryable (retryable : RayError → Bool)
    (body : Nat → Except RayError α) (fuel : Nat) (e : RayError)
    (hr : retryable e = false) (h : body 0 = .error e) :
    retryExec retryable body fuel 0 = (.error e, 1) := by
  cases fuel <;> simp [retryExec, h, hr]

/-- C9: call is a bounded-retried passthrough to the wrapped process: at most
10 attempts are ever made, a first-attempt success is returned after exactly
one attempt, a non-operational error propagates after exactly one attempt, and
when the process has not been constructed yet the call fails immediately on
the first attempt with an error, with no retry. -/
theorem c9_call_bounded_retry (methodName : String) (args : List Nat) :
    rayCall none methodName args = (.error (.attributeError "process"), 1) ∧
    (∀ p : ProcessApp, (rayCall (some p) methodName args).2 ≤ 10) ∧
    (∀ (p : ProcessApp) (v : Nat), p.callMethod methodName args 0 = .ok v →
      rayCall (some p) methodName args = (.ok v, 1)) ∧
    (∀ (p : ProcessApp) (e : RayError), retryOnOperationalError e = false →
      p.callMethod methodName args 0 = .error e →
      rayCall (some p) methodName args = (.error e, 1)) := by
  refine ⟨?_, ?_, ?_, ?_⟩
  · exact retryExec_first_nonretryable _ _ 9 (.attributeError "process") rfl rfl
  · intro p
    have := retryExec_attempts_le retryOnOperationalError
      (callBody (some p) methodName args) 9 0
    simpa [rayCall] using this
  · intro p v h
    exact retryExec_first_ok _ _ 9 v (by simpa [callBody] using h)
  · intro p e hr h
    exact retryExec_first_nonretryable _ _ 9 e hr (by simpa [callBody] using h)

/-- C9 witness: before init the concrete call fails after one attempt with no
retry; after init the always-succeeding process is passed through after one
attempt, within the bound of 10. -/
theorem c9_witness :
    rayCall none "m" [] = (.error (.attributeError "process"), 1) ∧
    rayCall (some sampleApp) "m" [] = (.ok 5, 1) ∧
    (rayCall (some sampleApp) "m" []).2 ≤ 10 := by
  have h := c9_call_bounded_retry "m" []
  exact ⟨h.1, h.2.2.1 sampleApp 5 rfl, h.2.1 sampleApp⟩

theorem validateInfrastructure_fails (pcs : List ProcessClassDesc)
    (infra : Option InfraClassDesc)
    (hsome : ∃ pc ∈ pcs, pc.isConcreteInfrastructureInstance = false)
    (hinfra : infra = none ∨
      ∃ ic, infra = some ic ∧ ic.isConcreteInfrastructureSubclass = false) :
    ∃ msg, validateInfrastructure pcs infra = some (RayError.programmingError msg) := by
  induction pcs with
  | nil => obtain ⟨pc, hmem, _⟩ := hsome; cases hmem
  | cons pc rest ih =>
    by_cases hc : pc.isConcreteInfrastructureInstance
    · have hrest : ∃ q ∈ rest, q.isConcreteInfrastructureInstance = false := by
        obtain ⟨q, hmem, hq⟩ := hsome
        rcases List.mem_cons.mp hmem with rfl | hm
        · rw [hc] at hq; cases hq
        · exact ⟨q, hm, hq⟩
      obtain ⟨msg, hmsg⟩ := ih hrest
      exact ⟨msg, by simpa [validateInfrastructure, hc] using hmsg⟩
    · rcases hinfra with rfl | ⟨ic, rfl, hic⟩
      · exact ⟨"infrastructure_class is not set", by simp [validateInfrastructure, hc]⟩
      · exact ⟨"infrastructure_class is not a subclass",
          by simp [validateInfrastructure, hc, hic]⟩

/-- C6 counterexample: on a configuration whose only process class lacks
concrete infrastructure and with no infrastructure class set, start aborts
before spawning any actor (no action is performed), but it raises
ProgrammingError, not the ConfigurationError the claim names. -/
theorem c6_counterexample :
    runnerStart missingInfraConfig =
      ([], some (RayError.programmingError "infrastructure_class is not set")) ∧
    raisesConfigurationError (runnerStart missingInfraConfig) = false :=
  ⟨rfl, rfl⟩

/-- C6 amended: start fails fast with a ProgrammingError (not a
ConfigurationError), before spawning any actor, when some process class lacks
a concrete storage backend and no suitable infrastructure class is configured:
none set, or the configured one not a subclass of
ApplicationWithConcreteInfrastructure. -/
theorem c6_amended_fail_fast (cfg : RunnerConfig)
    (hsome : ∃ pc ∈ cfg.processClasses, pc.isConcreteInfrastructureInstance = false)
    (hinfra : cfg.infrastructureClass = none ∨
      ∃ ic, cfg.infrastructureClass = some ic ∧
        ic.isConcreteInfrastructureSubclass = false) :
    ∃ msg, runnerStart cfg = ([], some (RayError.programmingError msg)) := by
  obtain ⟨msg, hmsg⟩ := validateInfrastructure_fails cfg.processClasses
    cfg.infrastructureClass hsome hinfra
  exact ⟨msg, by simp [runnerStart, hmsg]⟩

/-- C6 witness: the amended statement evaluated on the concrete failing
configuration. -/
theorem c6_witness :
    ∃ msg, runnerStart missingInfraConfig = ([], some (RayError.programmingError msg)) :=
  c6_amended_fail_fast missingInfraConfig
    ⟨⟨"orders", false⟩, by simp [missingInfraConfig], rfl⟩ (Or.inl rfl)

/-- C2: in the Puller round, the causal-dependency check runs, and raises on a
violation, before the decoded event is put on the event queue: every item the
round adds to the queue comes from a notification whose declared dependencies
are locally applied, and the round finishes without raising exactly when every
notification read passed the check. -/
theorem c2_causal_gate (decode : Notification → DomainEvent) (appliedPos : String → Nat)
    (uname : String) (ns : List Notification) (q : List QItem) :
    (∀ it ∈ (enqueueNotifications decode appliedPos uname ns q).1,
      it ∈ q ∨ ∃ n ∈ ns,
        checkCausalDependencies appliedPos n.causalDependencies = .ok () ∧
        it = (decode n, n.id, uname)) ∧
    ((enqueueNotifications decode appliedPos uname ns q).2 = none ↔
      ∀ n ∈ ns, checkCausalDependencies appliedPos n.causalDependencies = .ok ()) := by
  induction ns generalizing q with
  | nil => simp [enqueueNotifications]
  | cons n rest ih =>
    cases hchk : checkCausalDependencies appliedPos n.causalDependencies with
    | error e =>
      refine ⟨?_, ?_⟩
      · intro it hit
        rw [enqueueNotifications, hchk] at hit
        exact Or.inl hit
      · rw [enqueueNotifications, hchk]
        simp only [List.mem_cons]
        constructor
        · intro h; cases h
        · intro h
          have := h n (Or.inl rfl)
          rw [hchk] at this
          cases this
    | ok u =>
      obtain ⟨ih1, ih2⟩ := ih (q ++ [(decode n, n.id, uname)])
      refine ⟨?_, ?_⟩
      · intro it hit
        rw [enqueueNotifications, hchk] at hit
        rcases ih1 it hit with hq | ⟨m, hm, hok, heq⟩
        · rcases List.mem_append.mp hq with h | h
          · exact Or.inl h
          · refine Or.inr ⟨n, List.mem_cons_self n rest, ?_, ?_⟩
            · rw [hchk]
            · exact List.mem_singleton.mp h

        · exact Or.inr ⟨m, List.mem_cons_of_mem n hm, hok, heq⟩
      · rw [enqueueNotifications, hchk]
        rw [ih2]
        constructor
        · intro h m hm
          rcases List.mem_cons.mp hm with rfl | hm2
          · rw [hchk]
          · exact h m hm2
        · intro h m hm
          exact h m (List.mem_cons_of_mem n hm)

/-- C2 witness: on the concrete batch every dependency is satisfied, and the
gate theorem yields that the round raises nothing. -/
theorem c2_witness :
    (enqueueNotifications sampleDecode sampleAppliedPos "u" sampleNotifs []).2 = none := by
  apply (c2_causal_gate sampleDecode sampleAppliedPos "u" sampleNotifs []).2.mpr
  intro n hn
  fin_cases hn <;> rfl

/-- C4: on a successful start every spawned actor has init invoked on it, and
the awaited barrier (the ray.get over all init results) sits strictly after
every init invocation and strictly before every run invocation, so no actor
runs its loops before all actors are wired. -/
theorem c4_two_phase_start (cfg : RunnerConfig) (actions : List RunnerAction)
    (hok : runnerStart cfg = (actions, none)) :
    (∀ n pid, RunnerAction.spawnActor n pid ∈ actions →
      RunnerAction.initActor n pid ∈ actions) ∧
    (∃ k : Nat, actions[k]? = some RunnerAction.awaitAllInits ∧
      (∀ i n pid, actions[i]? = some (RunnerAction.initActor n pid) → i < k) ∧
      (∀ j n pid, actions[j]? = some (RunnerAction.runActor n pid) → k < j)) := by
  have hact : actions =
      (actorKeys cfg).map (fun a => RunnerAction.spawnActor a.1 a.2) ++
        ((actorKeys cfg).map (fun a => RunnerAction.initActor a.1 a.2) ++
          ([RunnerAction.awaitAllInits] ++
            (actorKeys cfg).map (fun a => RunnerAction.runActor a.1 a.2))) := by
    unfold runnerStart at hok
    split at hok
    · simp at hok
    · split at hok
      · simp at hok
      · simp only [Prod.mk.injEq] at hok
        exact hok.1.symm
  constructor
  · intro n pid hmem
    rw [hact] at hmem ⊢
    rcases List.mem_append.mp hmem with hs | hrest
    · obtain ⟨a, ha, heq⟩ := List.mem_map.mp hs
      obtain ⟨h1, h2⟩ := RunnerAction.spawnActor.inj heq
      refine List.mem_append_right _ (List.mem_append_left _ (List.mem_map.mpr ⟨a, ha, ?_⟩))
      rw [h1, h2]
    · exfalso
      rcases List.mem_append.mp hrest with hi | hr2
      · obtain ⟨a, _, heq⟩ := List.mem_map.mp hi
        exact RunnerAction.noConfusion heq
      · rcases List.mem_append.mp hr2 with hw | hr3
        · rw [List.mem_singleton] at hw
          exact RunnerAction.noConfusion hw
        · obtain ⟨a, _, heq⟩ := List.mem_map.mp hr3
          exact RunnerAction.noConfusion heq
  · have hassoc : actions =
        ((actorKeys cfg).map (fun a => RunnerAction.spawnActor a.1 a.2) ++
          (actorKeys cfg).map (fun a => RunnerAction.initActor a.1 a.2)) ++
        ([RunnerAction.awaitAllInits] ++
          (actorKeys cfg).map (fun a => RunnerAction.runActor a.1 a.2)) := by
      rw [hact, List.append_assoc]
    refine ⟨((actorKeys cfg).map (fun a => RunnerAction.spawnActor a.1 a.2) ++
      (actorKeys cfg).map (fun a => RunnerAction.initActor a.1 a.2)).length, ?_, ?_, ?_⟩
    · rw [hassoc, List.getElem?_append_right (Nat.le_refl _)]
      simp
    · intro i n pid hi
      by_contra hni
      push_neg at hni
      rw [hassoc, List.getElem?_append_right hni] at hi
      have hm := List.getElem?_mem hi
      rcases List.mem_append.mp hm with hw | hr
      · rw [List.mem_singleton] at hw
        exact RunnerAction.noConfusion hw
      · obtain ⟨a, _, heq⟩ := List.mem_map.mp hr
        exact RunnerAction.noConfusion heq
    · intro j n pid hj
      by_contra hnj
      push_neg at hnj
      rcases Nat.lt_or_ge j (((actorKeys cfg).map (fun a => RunnerAction.spawnActor a.1 a.2) ++
          (actorKeys cfg).map (fun a => RunnerAction.initActor a.1 a.2)).length) with hlt | hge
      · rw [hassoc, List.getElem?_append, if_pos hlt] at hj
        have hm := List.getElem?_mem hj
        rcases List.mem_append.mp hm with hs | hi
        · obtain ⟨a, _, heq⟩ := List.mem_map.mp hs
          exact RunnerAction.noConfusion heq
        · obtain ⟨a, _, heq⟩ := List.mem_map.mp hi
          exact RunnerAction.noConfusion heq
      · have hje : j = ((actorKeys cfg).map (fun a => RunnerAction.spawnActor a.1 a.2) ++
            (actorKeys cfg).map (fun a => RunnerAction.initActor a.1 a.2)).length :=
          Nat.le_antisymm hnj hge
        rw [hje, hassoc, List.getElem?_append_right (Nat.le_refl _)] at hj
        simp at hj

/-- C4 witness: on the concrete two-process configuration the start succeeds
and init is invoked on the spawned actor (a, 0). -/
theorem c4_witness :
    RunnerAction.initActor "a" 0 ∈ (runnerStart twoProcConfig).1 :=
  (c4_two_phase_start twoProcConfig (runnerStart twoProcConfig).1 rfl).1 "a" 0 (by decide)

theorem pairwise_lt_le_getLast :
    ∀ {l : List Nat}, List.Pairwise (· < ·) l → ∀ {d x : Nat}, x ∈ l →
      x ≤ l.getLast?.getD d := by
  intro l
  induction l with
  | nil => intro _ _ _ hx; cases hx
  | cons y ys ih =>
    intro hl d x hx
    rw [List.pairwise_cons] at hl
    cases ys with
    | nil =>
      rw [List.mem_singleton] at hx
      subst hx
      simp
    | cons z zs =>
      rw [List.getLast?_cons_cons]
      rcases List.mem_cons.mp hx with rfl | hx2
      · have hne : (z :: zs) ≠ ([] : List Nat) := by simp
        have hmem : (z :: zs).getLast hne ∈ z :: zs := List.getLast_mem hne
        have hlt := hl.1 _ hmem
        rw [List.getLast?_eq_getLast (z :: zs) hne]
        simpa using le_of_lt hlt
      · exact ih hl.2 hx2

theorem filter_interval_split (a b c : Nat) (hab : a ≤ b) (hbc : b ≤ c) :
    ∀ l : List Nat, List.Pairwise (· < ·) l →
      l.filter (fun i => decide (a < i) && decide (i ≤ c)) =
        l.filter (fun i => decide (a < i) && decide (i ≤ b)) ++
          l.filter (fun i => decide (b < i) && decide (i ≤ c)) := by
  intro l
  induction l with
  | nil => intro _; simp
  | cons x xs ih =>
    intro hl
    rw [List.pairwise_cons] at hl
    obtain ⟨hx, hxs⟩ := hl
    have ihx := ih hxs
    by_cases hax : a < x
    · by_cases hxb : x ≤ b
      · have hxc : x ≤ c := le_trans hxb hbc
        simp [List.filter_cons, hax, hxb, hxc, ihx]
      · push_neg at hxb
        by_cases hxc : x ≤ c
        · have hfab : xs.filter (fun i => decide (a < i) && decide (i ≤ b)) = [] := by
            rw [List.filter_eq_nil_iff]
            intro y hy
            have hby : b < y := lt_trans hxb (hx y hy)
            simp [Nat.not_le.mpr hby]
          have hfeq : xs.filter (fun i => decide (a < i) && decide (i ≤ c)) =
              xs.filter (fun i => decide (b < i) && decide (i ≤ c)) := by
            apply List.filter_congr
            intro y hy
            have h1 : a < y := lt_trans (lt_of_le_of_lt hab hxb) (hx y hy)
            have h2 : b < y := lt_trans hxb (hx y hy)
            simp [h1, h2]
          simp [List.filter_cons, hax, hxc, Nat.not_le.mpr hxb, hxb, hfab, hfeq]
        · have hxb2 : ¬ x ≤ b := Nat.not_le.mpr hxb
          simp [List.filter_cons, hxc, hxb2, ihx]
    · have hbx : ¬ b < x := fun h => hax (lt_of_le_of_lt hab h)
      simp [List.filter_cons, hax, hbx, ihx]

theorem c1Inv_pull (log : List Nat) (hlog : List.Pairwise (· < ·) log) (p0 c : Nat)
    (s : SingleUpstreamState) (hinv : c1Inv log p0 s) :
    c1Inv log p0 (pullOnce log c s) := by
  obtain ⟨hpos, happ⟩ := hinv
  by_cases hns : readerRead log s.readerPos c = []
  · constructor
    · simpa [pullOnce, hns] using hpos
    · simpa [pullOnce, hns] using happ
  · have hnspw : List.Pairwise (· < ·) (readerRead log s.readerPos c) :=
      hlog.filter _
    have hgsome := List.getLast?_eq_getLast (readerRead log s.readerPos c) hns
    have hgmem : (readerRead log s.readerPos c).getLast?.getD s.readerPos ∈
        readerRead log s.readerPos c := by
      rw [hgsome]
      simp only [Option.getD_some]
      exact List.getLast_mem hns
    have hgprop := List.mem_filter.mp hgmem
    have hglt : s.readerPos < (readerRead log s.readerPos c).getLast?.getD s.readerPos := by
      have := hgprop.2
      simp at this
      exact this.1
    have hgle : (readerRead log s.readerPos c).getLast?.getD s.readerPos ≤ c := by
      have := hgprop.2
      simp at this
      exact this.2
    have hub : ∀ y ∈ readerRead log s.readerPos c,
        y ≤ (readerRead log s.readerPos c).getLast?.getD s.readerPos := by
      intro y hy
      exact pairwise_lt_le_getLast hnspw hy
    constructor
    · simp only [pullOnce]
      exact le_trans hpos (le_of_lt hglt)
    · simp only [pullOnce]
      rw [← List.append_assoc, happ]
      rw [filter_interval_split p0 s.readerPos
        ((readerRead log s.readerPos c).getLast?.getD s.readerPos)
        hpos (le_of_lt hglt) log hlog]
      congr 1
      apply List.filter_congr
      intro y hy
      by_cases hpy : s.readerPos < y
      · have hiff : y ≤ c ↔
            y ≤ (readerRead log s.readerPos c).getLast?.getD s.readerPos := by
          constructor
          · intro hyc
            exact hub y (List.mem_filter.mpr ⟨hy, by simp [hpy, hyc]⟩)
          · intro hyg
            exact le_trans hyg hgle
        simp [hpy, hiff]
      · simp [hpy]

theorem c1Inv_apply (log : List Nat) (p0 : Nat) (s : SingleUpstreamState)
    (hinv : c1Inv log p0 s) : c1Inv log p0 (applyOnce s) := by
  obtain ⟨hpos, happ⟩ := hinv
  cases hq : s.queued with
  | nil => exact ⟨by simpa [applyOnce, hq] using hpos, by
      rw [hq] at happ
      simpa [applyOnce, hq] using happ⟩
  | cons i rest =>
    constructor
    · simpa [applyOnce, hq] using hpos
    · rw [hq] at happ
      simp only [applyOnce, hq]
      rw [List.append_assoc]
      simpa using happ

theorem c1Inv_runSteps (log : List Nat) (hlog : List.Pairwise (· < ·) log) (p0 : Nat) :
    ∀ (tr : List FaultFreeStep) (s : SingleUpstreamState),
      c1Inv log p0 s → c1Inv log p0 (runSteps log tr s) := by
  intro tr
  induction tr with
  | nil => intro s h; exact h
  | cons step rest ih =>
    intro s h
    cases step with
    | pullRound c => exact ih _ (c1Inv_pull log hlog p0 c s h)
    | applyNext => exact ih _ (c1Inv_apply log p0 s h)

theorem runSteps_drain (log : List Nat) :
    ∀ (q a : List Nat) (p : Nat),
      runSteps log (List.replicate q.length FaultFreeStep.applyNext) ⟨p, q, a⟩ =
        ⟨p, [], a ++ q⟩ := by
  intro q
  induction q with
  | nil => intro a p; simp [runSteps]
  | cons i rest ih =>
    intro a p
    simp only [List.length_cons, List.replicate_succ, runSteps, applyOnce]
    rw [ih (a ++ [i]) p]
    simp

/-- C1: in every fault-free interleaving of Puller rounds and Processor
iterations over a single upstream whose log has strictly increasing ids, the
notification ids applied through process_upstream_event form a strictly
increasing sequence, hence are observed in order and no id is applied twice;
and a Puller round reading everything published, followed by a Processor
draining the queue, applies every notification past the start position exactly
once, in log order. -/
theorem c1_strict_order_exactly_once (log : List Nat) (p0 : Nat)
    (hlog : List.Pairwise (· < ·) log) :
    (∀ tr : List FaultFreeStep,
      List.Pairwise (· < ·) (runSteps log tr ⟨p0, [], []⟩).applied) ∧
    (∀ c : Nat, (∀ i ∈ log, i ≤ c) →
      (runSteps log (FaultFreeStep.pullRound c ::
          List.replicate (readerRead log p0 c).length FaultFreeStep.applyNext)
        ⟨p0, [], []⟩).applied = log.filter (fun i => decide (p0 < i))) := by
  have hinit : c1Inv log p0 ⟨p0, [], []⟩ := by
    constructor
    · exact le_refl p0
    · rw [List.nil_append]
      symm
      rw [List.filter_eq_nil_iff]
      intro y hy
      simp
  constructor
  · intro tr
    obtain ⟨hpos, happ⟩ := c1Inv_runSteps log hlog p0 tr ⟨p0, [], []⟩ hinit
    have hpw : List.Pairwise (· < ·)
        ((runSteps log tr ⟨p0, [], []⟩).applied ++ (runSteps log tr ⟨p0, [], []⟩).queued) := by
      rw [happ]
      exact hlog.filter _
    exact List.Pairwise.sublist (List.sublist_append_left _ _) hpw
  · intro c hc
    have hpull : pullOnce log c ⟨p0, [], []⟩ =
        ⟨(readerRead log p0 c).getLast?.getD p0, readerRead log p0 c, []⟩ := by
      simp [pullOnce]
    simp only [runSteps, hpull]
    rw [runSteps_drain log (readerRead log p0 c) [] ((readerRead log p0 c).getLast?.getD p0)]
    simp only [List.nil_append]
    apply List.filter_congr
    intro y hy
    simp [hc y hy]

/-- C1 witness: with log ids 1, 2, 3 and tracking position 0, one full Puller
round followed by three Processor iterations applies exactly 1, 2, 3 in
order. -/
theorem c1_witness :
    List.Pairwise (· < ·) [1, 2, 3] ∧
    (runSteps [1, 2, 3]
        (FaultFreeStep.pullRound 3 ::
          List.replicate (readerRead [1, 2, 3] 0 3).length FaultFreeStep.applyNext)
        ⟨0, [], []⟩).applied = List.filter (fun i => decide (0 < i)) [1, 2, 3] :=
  ⟨by decide, (c1_strict_order_exactly_once [1, 2, 3] 0 (by decide)).2 3 (by decide)⟩

end RaySpec
